import Mathlib

/-!
Shallow embedding of the beta9 worker-side agent (package `agent`) used to
check the natural-language specification against the source.

The embedding covers:
* `pkg/agent/state.go` — `AgentState` and its published operations
  (`UpdateMetrics`, `UpdateHeartbeat`, `AddJob`, `UpdateInference`, `AddLog`);
* `pkg/agent/errors.go` — `determineJobStatus`, `extractFuncName`,
  `ErrConfigValidation`, `ErrRegistrationFailed`;
* `pkg/agent/inference.go` — `AgentConfig.Validate`, `OllamaManager.UnloadModel`;
* `pkg/agent/keepalive.go` — the per-tick outcome of `KeepaliveLoop.sendKeepalive`;
* the registration client — `RegisterMachine`.

Machine integers are modelled as `Int`/`Nat`; Go strings whose byte-level
length matters (`AddLog`, `machineId` validation) are modelled as `List Char`
over their byte content; wall-clock reads (`time.Now()`) are passed in as
explicit parameters; HTTP round trips are passed in as explicit outcome
values (transport error versus a response with a status code and body).
-/

namespace Beta9

/-- `JobStatus` from `state.go`: PENDING, RUNNING, COMPLETED, FAILED. -/
inductive JobStatus where
  | pending
  | running
  | completed
  | failed
deriving DecidableEq, Repr

/-- `JobInfo` from `state.go`: tracks a single job/pod.  Time stamps and
durations are modelled as integers. -/
structure JobInfo where
  PodName   : String
  TaskID    : String := ""
  FuncName  : String := ""
  Status    : JobStatus
  StartTime : Int := 0
  EndTime   : Int := 0
  Duration  : Int := 0
  CPU       : String := ""
  Memory    : String := ""
  ExitCode  : Int := 0
deriving DecidableEq, Repr

/-- `AgentState` from `state.go`.  Log entries are modelled as the byte
content of the Go strings (`List Char`); `MaxLogs` is a Go `int`, hence
`Int` here (negative values are meaningful to `AddLog`). -/
structure AgentState where
  MachineID       : String
  PoolName        : String
  Gateway         : String
  Status          : String
  CPUPercent      : Int
  MemoryPercent   : Int
  GPUCount        : Int
  StartTime       : Int
  LastHeartbeat   : Int
  HeartbeatStatus : String
  Jobs            : List JobInfo
  RunningJobs     : Nat
  TotalJobs       : Nat
  InferenceStatus : String
  InferenceIP     : String
  InferencePort   : Int
  InferenceModels : List String
  Logs            : List (List Char)
  MaxLogs         : Int
deriving DecidableEq, Repr

/-- `NewAgentState` from `state.go`: the freshly created state. -/
def NewAgentState (machineID poolName gateway : String) (now : Int) : AgentState :=
  { MachineID       := machineID
    PoolName        := poolName
    Gateway         := gateway
    Status          := "STARTING"
    CPUPercent      := 0
    MemoryPercent   := 0
    GPUCount        := 0
    StartTime       := now
    LastHeartbeat   := 0
    HeartbeatStatus := ""
    Jobs            := []
    RunningJobs     := 0
    TotalJobs       := 0
    InferenceStatus := "stopped"
    InferenceIP     := ""
    InferencePort   := 0
    InferenceModels := []
    Logs            := []
    MaxLogs         := 10 }

/-- `AgentState.UpdateMetrics` from `state.go`. -/
def AgentState.UpdateMetrics (s : AgentState) (cpu memory : Int) (gpus : Int) : AgentState :=
  { s with CPUPercent := cpu, MemoryPercent := memory, GPUCount := gpus }

/-- `AgentState.UpdateHeartbeat` from `state.go`; `now` stands for the
`time.Now()` read. -/
def AgentState.UpdateHeartbeat (s : AgentState) (success : Bool) (now : Int) : AgentState :=
  if success then
    { s with LastHeartbeat := now
             HeartbeatStatus := "ok"
             Status := if s.Status ≠ "BUSY" then "READY" else s.Status }
  else
    { s with LastHeartbeat := now
             HeartbeatStatus := "failed"
             Status := "UNHEALTHY" }

/-- The running-job count computed by `updateJobCounts` in `state.go`:
jobs whose status is RUNNING or PENDING. -/
def runningCount (jobs : List JobInfo) : Nat :=
  (jobs.filter (fun job => job.Status = JobStatus.running ∨ job.Status = JobStatus.pending)).length

/-- `AgentState.updateJobCounts` from `state.go`. -/
def AgentState.updateJobCounts (s : AgentState) : AgentState :=
  let running := runningCount s.Jobs
  let s' := { s with RunningJobs := running, TotalJobs := s.Jobs.length }
  if running > 0 then
    { s' with Status := "BUSY" }
  else if s.HeartbeatStatus = "ok" then
    { s' with Status := "READY" }
  else
    s'

/-- The in-place replacement performed by the loop in `AgentState.AddJob`:
the first entry whose `PodName` equals `job.PodName` is overwritten. -/
def replaceFirstJob (jobs : List JobInfo) (job : JobInfo) : List JobInfo :=
  match jobs with
  | [] => []
  | existing :: rest =>
      if existing.PodName = job.PodName then job :: rest
      else existing :: replaceFirstJob rest job

/-- `AgentState.AddJob` from `state.go`: update an existing entry in place,
otherwise prepend and keep only the first 20 entries; then recompute the
job counters. -/
def AgentState.AddJob (s : AgentState) (job : JobInfo) : AgentState :=
  if s.Jobs.any (fun existing => existing.PodName = job.PodName) then
    AgentState.updateJobCounts { s with Jobs := replaceFirstJob s.Jobs job }
  else
    AgentState.updateJobCounts { s with Jobs := (job :: s.Jobs).take 20 }

/-- `AgentState.UpdateInference` from `state.go` (the defensive slice copy
has no observable effect in a value model). -/
def AgentState.UpdateInference (s : AgentState) (status ip : String) (port : Int)
    (models : List String) : AgentState :=
  { s with InferenceStatus := status, InferenceIP := ip, InferencePort := port
           InferenceModels := models }

/-- The log entry built by `AgentState.AddLog`: `timestamp + " " + msg`,
truncated to `entry[:67] + "..."` when longer than 70 bytes.  `timestamp`
stands for the `time.Now().Format("15:04:05")` read (8 bytes). -/
def mkLogEntry (timestamp msg : List Char) : List Char :=
  let entry := timestamp ++ [' '] ++ msg
  if entry.length > 70 then entry.take 67 ++ ['.', '.', '.'] else entry

/-- `AgentState.AddLog` from `state.go`: append the (possibly truncated)
entry, then trim to the last `MaxLogs` entries when `MaxLogs > 0`, clear the
buffer when `MaxLogs = 0`, and leave untrimmed when `MaxLogs < 0`. -/
def AgentState.AddLog (s : AgentState) (timestamp msg : List Char) : AgentState :=
  let logs := s.Logs ++ [mkLogEntry timestamp msg]
  let logs' :=
    if s.MaxLogs > 0 ∧ (logs.length : Int) > s.MaxLogs then
      logs.drop (logs.length - s.MaxLogs.toNat)
    else if s.MaxLogs = 0 then
      []
    else
      logs
  { s with Logs := logs' }

/-- One published `AgentState` operation, as invoked by the other agent
components. -/
inductive AgentOp where
  | updateMetrics (cpu memory : Int) (gpus : Int)
  | updateHeartbeat (success : Bool) (now : Int)
  | addJob (job : JobInfo)
  | updateInference (status ip : String) (port : Int) (models : List String)
  | addLog (timestamp msg : List Char)
deriving Repr

/-- Apply one published operation to the state. -/
def applyOp (s : AgentState) : AgentOp → AgentState
  | .updateMetrics cpu memory gpus => s.UpdateMetrics cpu memory gpus
  | .updateHeartbeat success now => s.UpdateHeartbeat success now
  | .addJob job => s.AddJob job
  | .updateInference status ip port models => s.UpdateInference status ip port models
  | .addLog timestamp msg => s.AddLog timestamp msg

/-- Apply a sequence of published operations, oldest first. -/
def runOps (s : AgentState) (ops : List AgentOp) : AgentState :=
  ops.foldl applyOp s

/-- A state is reachable when some sequence of published operations produces
it from a freshly created state. -/
def Reachable (s : AgentState) : Prop :=
  ∃ machineID poolName gateway now ops,
    s = runOps (NewAgentState machineID poolName gateway now) ops

/-! ### Configuration (`inference.go`, config section) -/

/-- `ErrConfigValidation` from `errors.go`. -/
structure ErrConfigValidation where
  Field   : String
  Message : String
deriving DecidableEq, Repr

/-- `AgentConfig` from `inference.go` (durations as integral seconds). -/
structure AgentConfig where
  Token               : String
  MachineID           : String
  PoolName            : String
  GatewayHost         : String := "localhost"
  GatewayPort         : Int := 1994
  GatewayScheme       : String := "http"
  ProviderName        : String := "generic"
  Hostname            : String := ""
  K3sToken            : String := ""
  KeepaliveInterval   : Int := 60
  RegistrationTimeout : Int := 30
  Debug               : Bool := false
  DryRun              : Bool := false
  Once                : Bool := false
deriving DecidableEq, Repr

/-- `AgentConfig.GatewayURL` from `inference.go`. -/
def AgentConfig.GatewayURL (c : AgentConfig) : String :=
  c.GatewayScheme ++ "://" ++ c.GatewayHost ++ ":" ++ toString c.GatewayPort

/-- `AgentConfig.RegisterURL` from `inference.go`. -/
def AgentConfig.RegisterURL (c : AgentConfig) : String :=
  c.GatewayURL ++ "/api/v1/machine/register"

/-- `AgentConfig.KeepaliveURL` from `inference.go`. -/
def AgentConfig.KeepaliveURL (c : AgentConfig) : String :=
  c.GatewayURL ++ "/api/v1/machine/keepalive"

/-- Membership of a character in the regexp character class `[a-fA-F0-9]`
used by `AgentConfig.Validate`. -/
def isHexChar (c : Char) : Bool :=
  ('0' ≤ c ∧ c ≤ '9') ∨ ('a' ≤ c ∧ c ≤ 'f') ∨ ('A' ≤ c ∧ c ≤ 'F')

/-- `AgentConfig.Validate` from `inference.go`.  The Go code checks the
machine id against the anchored regexp `^[a-fA-F0-9]{8}$` after checking
`len(machineId) == 8`; at that point the regexp matches exactly when every
character is in `[a-fA-F0-9]`. -/
def AgentConfig.Validate (c : AgentConfig) : Option ErrConfigValidation :=
  if c.Token = "" then
    some ⟨"token", "is required"⟩
  else if c.MachineID = "" then
    some ⟨"machine_id", "is required"⟩
  else if c.MachineID.length ≠ 8 then
    some ⟨"machine_id", "must be exactly 8 hex chars"⟩
  else if ¬ c.MachineID.data.all isHexChar then
    some ⟨"machine_id", "must be hex characters only"⟩
  else if c.PoolName = "" then
    some ⟨"pool_name", "is required"⟩
  else if c.GatewayPort < 1 ∨ c.GatewayPort > 65535 then
    some ⟨"gateway_port", "must be 1-65535"⟩
  else
    none

/-! ### Pod watch events (`errors.go`, job monitor section) -/

/-- The `terminated` container state consumed from a pod watch event. -/
structure ContainerTerminated where
  ExitCode   : Int
  FinishedAt : String := ""
deriving DecidableEq, Repr

/-- The `running` container state consumed from a pod watch event. -/
structure ContainerRunning where
  StartedAt : String := ""
deriving DecidableEq, Repr

/-- The `state` field of one container status (`nil` pointers as `Option`). -/
structure ContainerState where
  Running    : Option ContainerRunning := none
  Terminated : Option ContainerTerminated := none
deriving DecidableEq, Repr

/-- One entry of `status.containerStatuses` in a pod watch event. -/
structure ContainerStatus where
  Name  : String := ""
  Ready : Bool := false
  State : ContainerState
deriving DecidableEq, Repr

/-- The phase switch at the end of `JobMonitor.determineJobStatus`. -/
def phaseToJobStatus (phase : String) : JobStatus :=
  if phase = "Pending" then JobStatus.pending
  else if phase = "Running" then JobStatus.running
  else if phase = "Succeeded" then JobStatus.completed
  else if phase = "Failed" then JobStatus.failed
  else JobStatus.pending

/-- `JobMonitor.determineJobStatus` from `errors.go`, as a function of the
fields it reads: the event's `status.phase` and `status.containerStatuses`. -/
def determineJobStatus (phase : String) (containerStatuses : List ContainerStatus) : JobStatus :=
  match containerStatuses with
  | cs :: _ =>
    match cs.State.Terminated with
    | some t => if t.ExitCode = 0 then JobStatus.completed else JobStatus.failed
    | none =>
      match cs.State.Running with
      | some _ => JobStatus.running
      | none => phaseToJobStatus phase
  | [] => phaseToJobStatus phase

/-- `strings.Split` on a single-character separator, over the byte content
of a Go string: `splitOnChar sep s` is the list of (possibly empty) chunks
of `s` between occurrences of `sep`; for the empty string it is `[[]]`,
matching Go. -/
def splitOnChar (sep : Char) : List Char → List (List Char)
  | [] => [[]]
  | c :: rest =>
    if c = sep then
      [] :: splitOnChar sep rest
    else
      match splitOnChar sep rest with
      | [] => [[c]]
      | chunk :: chunks => (c :: chunk) :: chunks

/-- `extractFuncName` from `errors.go`: split the pod name on `-`; with at
least three parts return `parts[2:len(parts)-1]` joined by `-`, else the
pod name unchanged.  Strings are modelled by their byte content. -/
def extractFuncName (podName : List Char) : List Char :=
  let parts := splitOnChar '-' podName
  if parts.length ≥ 3 then
    List.intercalate ['-'] ((parts.drop 2).take (parts.length - 3))
  else
    podName

/-! ### Registration client (`RegisterMachine`) -/

/-- `ErrRegistrationFailed` from `errors.go` (`StatusCode = 0` when unset). -/
structure ErrRegistrationFailed where
  Reason     : String
  StatusCode : Nat := 0
deriving DecidableEq, Repr

/-- A value in the opaque `config` JSON object of a registration response. -/
inductive ConfigValue where
  | bool (b : Bool)
  | str (s : String)
  | num (n : Int)
deriving DecidableEq, Repr

/-- The parsed `config` object (`map[string]interface\x7b\x7d` in Go). -/
abbrev ConfigMap := List (String × ConfigValue)

/-- The error carried by a `RegistrationResult`: either a plain formatted
error (marshal / request construction) or an `ErrRegistrationFailed`. -/
inductive RegError where
  | plain (msg : String)
  | registrationFailed (e : ErrRegistrationFailed)
deriving DecidableEq, Repr

/-- `RegistrationResult` from the registration client. -/
structure RegistrationResult where
  Success : Bool := false
  Config  : ConfigMap := []
  Error   : Option RegError := none
deriving DecidableEq, Repr

/-- Outcome of the registration HTTP round trip, including the failure
points before the request is sent. -/
inductive RegistrationHttp where
  | marshalError (msg : String)
  | newRequestError (msg : String)
  | transportError (msg : String)
  | response (status : Nat) (body : String)
deriving DecidableEq, Repr

/-- `RegisterMachine` from the registration client, as a function of the
config and the HTTP outcome.  `parse` stands for `json.Unmarshal` of the
response body into `RegistrationResponse`; when it fails the Go code logs
and returns the zero-value (`nil`) config map, modelled as `[]`. -/
def RegisterMachine (parse : String → Option ConfigMap) (config : AgentConfig)
    (http : RegistrationHttp) : RegistrationResult :=
  if config.DryRun then
    { Success := true, Config := [("dry_run", ConfigValue.bool true)] }
  else
    match http with
    | .marshalError msg =>
        { Error := some (RegError.plain ("failed to marshal payload: " ++ msg)) }
    | .newRequestError msg =>
        { Error := some (RegError.plain ("failed to create request: " ++ msg)) }
    | .transportError msg =>
        { Error := some (RegError.registrationFailed
            { Reason := "connection failed to " ++ config.GatewayURL ++ ": " ++ msg
                ++ " (is SSH tunnel running?)" }) }
    | .response status body =>
        if status = 200 then
          { Success := true, Config := (parse body).getD [] }
        else if status = 403 then
          { Error := some (RegError.registrationFailed
              { StatusCode := 403
                Reason := "Invalid token - ensure token is from beta9 machine create" }) }
        else if status = 400 then
          { Error := some (RegError.registrationFailed
              { StatusCode := 400, Reason := "Bad request: " ++ body }) }
        else
          { Error := some (RegError.registrationFailed
              { StatusCode := status, Reason := "Unexpected response: " ++ body }) }

/-! ### Keepalive tick (`keepalive.go`) -/

/-- Outcome of one keepalive HTTP round trip, including the failure points
before the request is sent. -/
inductive KeepaliveHttp where
  | marshalError
  | newRequestError
  | transportError
  | response (status : Nat)
deriving DecidableEq, Repr

/-- The observable effects of one `KeepaliveLoop.sendKeepalive` call:
the new `consecutiveFailures` counter, the `UpdateHeartbeat` push made to
the attached state (`none` when no push happens), and the returned Bool. -/
structure KeepaliveStep where
  consecutiveFailures : Int
  heartbeatPushed     : Option Bool
  returned            : Bool
deriving DecidableEq, Repr

/-- `KeepaliveLoop.sendKeepalive` from `keepalive.go` (the variant holding an
optional `AgentState`), as a function of the dry-run flag, whether a state is
attached (`k.state != nil`), the current failure counter and the HTTP
outcome.  Metrics collection never fails the tick and is omitted. -/
def sendKeepalive (dryRun hasState : Bool) (failures : Int)
    (http : KeepaliveHttp) : KeepaliveStep :=
  if dryRun then
    { consecutiveFailures := failures, heartbeatPushed := none, returned := true }
  else
    match http with
    | .marshalError =>
        { consecutiveFailures := failures, heartbeatPushed := none, returned := false }
    | .newRequestError =>
        { consecutiveFailures := failures, heartbeatPushed := none, returned := false }
    | .transportError =>
        { consecutiveFailures := failures + 1, heartbeatPushed := none, returned := false }
    | .response status =>
        if status = 200 then
          { consecutiveFailures := 0
            heartbeatPushed := if hasState then some true else none
            returned := true }
        else
          { consecutiveFailures := failures + 1
            heartbeatPushed := if hasState then some false else none
            returned := false }

/-! ### Inference supervisor (`inference.go`, OllamaManager section) -/

/-- `LoadState` from `inference.go`. -/
inductive LoadState where
  | idle
  | loading
  | ready
  | error
deriving DecidableEq, Repr

/-- `ModelState` from `inference.go` (`SizeGB` is never read by the
modelled operations and is omitted; `LastUsed` as integral time). -/
structure ModelState where
  Name      : String
  LoadState : LoadState
  LastUsed  : Int := 0
  Error     : String := ""
deriving DecidableEq, Repr

/-- The fields of `OllamaManager` read or written by `UnloadModel`; the
`models` map is modelled as an association list. -/
structure OllamaManager where
  port     : Int := 11434
  models   : List (String × ModelState) := []
  started  : Bool := false
  external : Bool := false
deriving DecidableEq, Repr

/-- The map update in `UnloadModel`: when the model has an entry, set its
load state to `idle`; otherwise leave the map unchanged. -/
def setModelIdle (models : List (String × ModelState)) (model : String) :
    List (String × ModelState) :=
  models.map (fun p =>
    if p.1 = model then (p.1, { p.2 with LoadState := LoadState.idle }) else p)

/-- The `/api/generate` request body sent by `UnloadModel`. -/
structure GenerateRequest where
  path      : String
  model     : String
  keepAlive : Int
deriving DecidableEq, Repr

/-- The request `UnloadModel` POSTs: `/api/generate` with `keep_alive = 0`. -/
def unloadModelRequest (model : String) : GenerateRequest :=
  { path := "/api/generate", model := model, keepAlive := 0 }

/-- Outcome of the `UnloadModel` HTTP call. -/
inductive HttpCallResult where
  | newRequestError (msg : String)
  | transportError (msg : String)
  | response (status : Nat)
deriving DecidableEq, Repr

/-- `OllamaManager.UnloadModel` from `inference.go`, as a function of the
manager, the model name, and the HTTP call outcome.  Returns the updated
manager and the returned error message (`none` for `nil`). -/
def OllamaManager.UnloadModel (m : OllamaManager) (model : String)
    (call : HttpCallResult) : OllamaManager × Option String :=
  if ¬ m.started then
    (m, some "Ollama not started")
  else
    match call with
    | .newRequestError msg => (m, some msg)
    | .transportError msg => (m, some msg)
    | .response _ => ({ m with models := setModelIdle m.models model }, none)

/-! ## Theorems -/

/-- C9: for every `AgentState` whose status is `"BUSY"`, `UpdateHeartbeat true`
leaves the status equal to `"BUSY"`, sets the heartbeat status to `"ok"` and
refreshes `LastHeartbeat`, without demoting the status to `"READY"`. -/
theorem C9_updateHeartbeat_true_keeps_busy (s : AgentState) (now : Int)
    (h : s.Status = "BUSY") :
    (s.UpdateHeartbeat true now).Status = "BUSY" ∧
    (s.UpdateHeartbeat true now).HeartbeatStatus = "ok" ∧
    (s.UpdateHeartbeat true now).LastHeartbeat = now := by
  simp [AgentState.UpdateHeartbeat, h]

/-- Witness for C9 at a concrete busy state. -/
theorem C9_updateHeartbeat_true_keeps_busy_witness :
    (AgentState.UpdateHeartbeat
        { NewAgentState "abcd1234" "external" "http://localhost:1994" 0 with Status := "BUSY" }
        true 5).Status = "BUSY" :=
  (C9_updateHeartbeat_true_keeps_busy _ 5 rfl).1

/-- C10: `extractFuncName` returns the pod name unchanged when it has fewer
than three `-`-separated segments, the empty string when it has exactly
three, and otherwise the segments from the third up to the second-to-last,
joined by `-`. -/
theorem C10_extractFuncName_cases (podName : List Char) :
    ((splitOnChar '-' podName).length < 3 → extractFuncName podName = podName) ∧
    ((splitOnChar '-' podName).length = 3 → extractFuncName podName = []) ∧
    ((splitOnChar '-' podName).length > 3 →
      extractFuncName podName =
        List.intercalate ['-'] ((splitOnChar '-' podName).dropLast.drop 2)) := by
  refine ⟨fun h => ?_, fun h => ?_, fun h => ?_⟩
  · simp only [extractFuncName]
    rw [if_neg (by omega)]
  · simp only [extractFuncName]
    rw [if_pos (by omega), h]
    simp [List.intercalate]
  · simp only [extractFuncName]
    rw [if_pos (by omega), List.dropLast_eq_take, List.drop_take]
    have harith : (splitOnChar '-' podName).length - 1 - 2 =
        (splitOnChar '-' podName).length - 3 := by omega
    rw [harith]

/-- Witness for C10: a four-segment pod name keeps exactly its third
segment. -/
theorem C10_extractFuncName_cases_witness :
    extractFuncName "worker-abc123-hello-xyz".data = "hello".data := by
  have h := (C10_extractFuncName_cases "worker-abc123-hello-xyz".data).2.2 (by decide)
  rw [h]
  decide

/-- C6: the derived job status of a pod watch event is COMPLETED when the
first container status is terminated with exit code 0, FAILED when
terminated with nonzero exit code, otherwise RUNNING when the first
container status is running, and otherwise determined by the phase with
Pending→PENDING, Running→RUNNING, Succeeded→COMPLETED, Failed→FAILED and
any other phase yielding PENDING. -/
theorem C6_determineJobStatus_cases (phase : String) (cs : ContainerStatus)
    (rest : List ContainerStatus) (t : ContainerTerminated) :
    (cs.State.Terminated = some t → t.ExitCode = 0 →
      determineJobStatus phase (cs :: rest) = JobStatus.completed) ∧
    (cs.State.Terminated = some t → t.ExitCode ≠ 0 →
      determineJobStatus phase (cs :: rest) = JobStatus.failed) ∧
    (cs.State.Terminated = none → cs.State.Running.isSome →
      determineJobStatus phase (cs :: rest) = JobStatus.running) ∧
    (cs.State.Terminated = none → cs.State.Running = none →
      determineJobStatus phase (cs :: rest) = phaseToJobStatus phase) ∧
    (determineJobStatus phase [] = phaseToJobStatus phase) ∧
    (phaseToJobStatus "Pending" = JobStatus.pending) ∧
    (phaseToJobStatus "Running" = JobStatus.running) ∧
    (phaseToJobStatus "Succeeded" = JobStatus.completed) ∧
    (phaseToJobStatus "Failed" = JobStatus.failed) ∧
    (phase ≠ "Pending" → phase ≠ "Running" → phase ≠ "Succeeded" → phase ≠ "Failed" →
      phaseToJobStatus phase = JobStatus.pending) := by
  refine ⟨fun ht he => ?_, fun ht he => ?_, fun ht hr => ?_, fun ht hr => ?_,
    rfl, rfl, rfl, rfl, rfl, fun h1 h2 h3 h4 => ?_⟩
  · simp [determineJobStatus, ht, he]
  · simp [determineJobStatus, ht, he]
  · obtain ⟨r, hr'⟩ := Option.isSome_iff_exists.mp hr
    simp [determineJobStatus, ht, hr']
  · simp [determineJobStatus, ht, hr]
  · simp [phaseToJobStatus, h1, h2, h3, h4]

/-- Witness for C6: a pod event with neither running nor terminated state
and phase "Unknown" yields PENDING, and a terminated container with exit
code 0 yields COMPLETED. -/
theorem C6_determineJobStatus_cases_witness :
    determineJobStatus "Unknown"
      [{ State := { Running := none, Terminated := none } }] = JobStatus.pending ∧
    determineJobStatus "Running"
      [{ State := { Running := none, Terminated := some { ExitCode := 0 } } }] =
        JobStatus.completed := by
  constructor
  · have h := (C6_determineJobStatus_cases "Unknown"
      { State := { Running := none, Terminated := none } } [] { ExitCode := 0 }).2.2.2.1
      rfl rfl
    rw [h]
    decide
  · exact (C6_determineJobStatus_cases "Running"
      { State := { Running := none, Terminated := some { ExitCode := 0 } } } []
      { ExitCode := 0 }).1 rfl rfl

/-- C7: `RegisterMachine` maps HTTP 200 to success with the parsed config,
403 to an `ErrRegistrationFailed` with status 403 and an invalid-token
reason, 400 to status 400 carrying the body, a transport error to a
connection-failed reason with no status code, any other status to that
status and the body; in dry-run mode the outcome is independent of any HTTP
activity and a synthetic success is returned. -/
theorem C7_registerMachine_cases (parse : String → Option ConfigMap)
    (config : AgentConfig) (msg body : String) (status : Nat) :
    (config.DryRun = false →
      ((RegisterMachine parse config (.response 200 body)).Success = true ∧
       (RegisterMachine parse config (.response 200 body)).Config = (parse body).getD [] ∧
       (RegisterMachine parse config (.response 200 body)).Error = none) ∧
      ((RegisterMachine parse config (.response 403 body)).Success = false ∧
       (RegisterMachine parse config (.response 403 body)).Error =
         some (RegError.registrationFailed
           { StatusCode := 403
             Reason := "Invalid token - ensure token is from beta9 machine create" })) ∧
      ((RegisterMachine parse config (.response 400 body)).Success = false ∧
       (RegisterMachine parse config (.response 400 body)).Error =
         some (RegError.registrationFailed
           { StatusCode := 400, Reason := "Bad request: " ++ body })) ∧
      ((RegisterMachine parse config (.transportError msg)).Success = false ∧
       (RegisterMachine parse config (.transportError msg)).Error =
         some (RegError.registrationFailed
           { StatusCode := 0
             Reason := "connection failed to " ++ config.GatewayURL ++ ": " ++ msg
               ++ " (is SSH tunnel running?)" })) ∧
      (status ≠ 200 → status ≠ 403 → status ≠ 400 →
        (RegisterMachine parse config (.response status body)).Success = false ∧
        (RegisterMachine parse config (.response status body)).Error =
          some (RegError.registrationFailed
            { StatusCode := status, Reason := "Unexpected response: " ++ body }))) ∧
    (config.DryRun = true →
      (∀ h1 h2 : RegistrationHttp,
        RegisterMachine parse config h1 = RegisterMachine parse config h2) ∧
      (RegisterMachine parse config (.transportError msg)).Success = true ∧
      (RegisterMachine parse config (.transportError msg)).Config =
        [("dry_run", ConfigValue.bool true)]) := by
  constructor
  · intro hdry
    refine ⟨?_, ?_, ?_, ?_, fun h200 h403 h400 => ?_⟩
    · simp [RegisterMachine, hdry]
    · simp [RegisterMachine, hdry]
    · simp [RegisterMachine, hdry]
    · simp [RegisterMachine, hdry]
    · simp [RegisterMachine, hdry, h200, h403, h400]
  · intro hdry
    refine ⟨fun h1 h2 => ?_, ?_, ?_⟩
    · simp [RegisterMachine, hdry]
    · simp [RegisterMachine, hdry]
    · simp [RegisterMachine, hdry]

/-- Witness for C7 at a concrete config and concrete outcomes. -/
theorem C7_registerMachine_cases_witness :
    (RegisterMachine (fun _ => none)
      { Token := "tok", MachineID := "abcd1234", PoolName := "external" }
      (.response 500 "oops")).Error =
      some (RegError.registrationFailed
        { StatusCode := 500, Reason := "Unexpected response: oops" }) := by
  have h := ((C7_registerMachine_cases (fun _ => none)
    { Token := "tok", MachineID := "abcd1234", PoolName := "external" }
    "m" "oops" 500).1 rfl).2.2.2.2 (by decide) (by decide) (by decide)
  exact h.2

/-- C4 counterexample: the machine id `"ABCDEF12"` contains uppercase
letters, yet `Validate` accepts it (the source regexp is
`^[a-fA-F0-9]{8}$`, not `^[a-f0-9]{8}$` as claimed). -/
theorem C4_counterexample :
    ({ Token := "tok", MachineID := "ABCDEF12", PoolName := "external" } :
        AgentConfig).Validate = none ∧
    'A' ∈ "ABCDEF12".data := by decide

/-- C4 (amended): with all other config fields valid, `Validate` accepts
`machineId` exactly when its length is 8 and every character is in
`[a-fA-F0-9]`; every other value is rejected with a `machine_id`
config-validation error.  Uppercase hex letters are accepted. -/
theorem C4_validate_machineId (c : AgentConfig)
    (htok : c.Token ≠ "") (hpool : c.PoolName ≠ "")
    (hport : 1 ≤ c.GatewayPort ∧ c.GatewayPort ≤ 65535) :
    (c.Validate = none ↔
      (c.MachineID.length = 8 ∧ c.MachineID.data.all isHexChar = true)) ∧
    ((c.MachineID.length ≠ 8 ∨ c.MachineID.data.all isHexChar ≠ true) →
      ∃ e, c.Validate = some e ∧ e.Field = "machine_id") := by
  have hport' : ¬ (c.GatewayPort < 1 ∨ c.GatewayPort > 65535) := by omega
  by_cases hempty : c.MachineID = ""
  · have hlen : c.MachineID.length = 0 := by rw [hempty]; rfl
    constructor
    · simp [AgentConfig.Validate, htok, hempty, hlen]
    · intro _
      refine ⟨⟨"machine_id", "is required"⟩, ?_, rfl⟩
      simp [AgentConfig.Validate, htok, hempty]
  · by_cases hlen : c.MachineID.length = 8
    · by_cases hhex : c.MachineID.data.all isHexChar = true
      · constructor
        · simp [AgentConfig.Validate, htok, hempty, hlen, hhex, hpool, hport']
        · intro h
          rcases h with h | h
          · exact absurd hlen h
          · exact absurd hhex h
      · constructor
        · simp [AgentConfig.Validate, htok, hempty, hlen, hhex]
        · intro _
          refine ⟨⟨"machine_id", "must be hex characters only"⟩, ?_, rfl⟩
          simp [AgentConfig.Validate, htok, hempty, hlen, hhex]
    · constructor
      · simp [AgentConfig.Validate, htok, hempty, hlen]
      · intro _
        refine ⟨⟨"machine_id", "must be exactly 8 hex chars"⟩, ?_, rfl⟩
        simp [AgentConfig.Validate, htok, hempty, hlen]

/-- Witness for C4 (amended) at a concrete accepted config. -/
theorem C4_validate_machineId_witness :
    ({ Token := "tok", MachineID := "abcd1234", PoolName := "external" } :
        AgentConfig).Validate = none := by
  have h := (C4_validate_machineId
    { Token := "tok", MachineID := "abcd1234", PoolName := "external" }
    (by decide) (by decide) (by decide)).1
  exact h.mpr (by decide)

/-- C5 counterexample: with the supervisor started and model `"m1"` in state
`ready`, a transport error on the unload POST returns the error but leaves
the load state at `ready` — it does not move to `idle` as claimed. -/
theorem C5_counterexample :
    (OllamaManager.UnloadModel
       { started := true, models := [("m1", { Name := "m1", LoadState := LoadState.ready })] }
       "m1" (HttpCallResult.transportError "connection refused")).2 =
      some "connection refused" ∧
    (OllamaManager.UnloadModel
       { started := true, models := [("m1", { Name := "m1", LoadState := LoadState.ready })] }
       "m1" (HttpCallResult.transportError "connection refused")).1.models =
      [("m1", { Name := "m1", LoadState := LoadState.ready })] := by decide

/-- C5 (amended): `UnloadModel(model)`, when the supervisor has been
started, POSTs `/api/generate` with `keep_alive = 0`; when the POST
completes without transport error (any status code) the model's load state
moves to `idle` and no error is returned; when the HTTP call produces an
error, the error is returned to the caller and the load state is left
unchanged. -/
theorem C5_unloadModel (m : OllamaManager) (model msg : String) (status : Nat)
    (hstarted : m.started = true) :
    (unloadModelRequest model).path = "/api/generate" ∧
    (unloadModelRequest model).keepAlive = 0 ∧
    (m.UnloadModel model (.response status)).2 = none ∧
    (∀ p ∈ (m.UnloadModel model (.response status)).1.models,
      p.1 = model → p.2.LoadState = LoadState.idle) ∧
    (m.UnloadModel model (.transportError msg) = (m, some msg)) ∧
    (m.UnloadModel model (.newRequestError msg) = (m, some msg)) := by
  refine ⟨rfl, rfl, ?_, ?_, ?_, ?_⟩
  · simp [OllamaManager.UnloadModel, hstarted]
  · intro p hp hpm
    have hmodels : (m.UnloadModel model (.response status)).1.models =
        setModelIdle m.models model := by
      simp [OllamaManager.UnloadModel, hstarted]
    rw [hmodels] at hp
    simp only [setModelIdle, List.mem_map] at hp
    obtain ⟨q, _, hpq⟩ := hp
    by_cases hqm : q.1 = model
    · rw [if_pos hqm] at hpq
      rw [← hpq]
    · rw [if_neg hqm] at hpq
      rw [← hpq] at hpm
      exact absurd hpm hqm
  · simp [OllamaManager.UnloadModel, hstarted]
  · simp [OllamaManager.UnloadModel, hstarted]

/-- Witness for C5 (amended) at a concrete started manager. -/
theorem C5_unloadModel_witness :
    (OllamaManager.UnloadModel
       { started := true, models := [("m1", { Name := "m1", LoadState := LoadState.ready })] }
       "m1" (HttpCallResult.response 200)).1.models =
      [("m1", { Name := "m1", LoadState := LoadState.idle })] := by
  have h := (C5_unloadModel
    { started := true, models := [("m1", { Name := "m1", LoadState := LoadState.ready })] }
    "m1" "msg" 200 rfl).2.2.2.1
  have h1 := h ("m1", { Name := "m1", LoadState := LoadState.idle })
  decide

/-- C2 counterexample: with an attached state and no dry run, a transport
error increments the failure counter but pushes no `UpdateHeartbeat` call at
all (the claim says it calls `UpdateHeartbeat(false)`), and the 2xx response
204 does not reset the counter (the claim says any 2xx resets it): the
source compares the status against 200 exactly. -/
theorem C2_counterexample :
    sendKeepalive false true 0 KeepaliveHttp.transportError =
      { consecutiveFailures := 1, heartbeatPushed := none, returned := false } ∧
    sendKeepalive false true 0 (KeepaliveHttp.response 204) =
      { consecutiveFailures := 1, heartbeatPushed := some false, returned := false } := by
  decide

/-- C2 (amended): in each non-dry-run keepalive tick of a loop with an
attached `AgentState`: a 200 response resets `consecutiveFailures` to zero
and calls `UpdateHeartbeat(true)`; any non-200 response increments
`consecutiveFailures` by one and calls `UpdateHeartbeat(false)`; a transport
error increments `consecutiveFailures` by one and makes no `UpdateHeartbeat`
call. -/
theorem C2_sendKeepalive_cases (failures : Int) (status : Nat)
    (hstatus : status ≠ 200) :
    sendKeepalive false true failures (KeepaliveHttp.response 200) =
      { consecutiveFailures := 0, heartbeatPushed := some true, returned := true } ∧
    sendKeepalive false true failures (KeepaliveHttp.response status) =
      { consecutiveFailures := failures + 1, heartbeatPushed := some false
        returned := false } ∧
    sendKeepalive false true failures KeepaliveHttp.transportError =
      { consecutiveFailures := failures + 1, heartbeatPushed := none
        returned := false } := by
  refine ⟨?_, ?_, ?_⟩
  · simp [sendKeepalive]
  · simp [sendKeepalive, hstatus]
  · simp [sendKeepalive]

/-- Witness for C2 (amended) at concrete counter and status values. -/
theorem C2_sendKeepalive_cases_witness :
    sendKeepalive false true 2 (KeepaliveHttp.response 500) =
      { consecutiveFailures := 3, heartbeatPushed := some false, returned := false } :=
  (C2_sendKeepalive_cases 2 500 (by decide)).2.1

/-- A sequence of `AddLog` writes, oldest first. -/
def addLogs (s : AgentState) (writes : List (List Char × List Char)) : AgentState :=
  writes.foldl (fun st w => st.AddLog w.1 w.2) s

theorem addLog_maxLogs (s : AgentState) (ts msg : List Char) :
    (s.AddLog ts msg).MaxLogs = s.MaxLogs := by
  simp only [AgentState.AddLog]

theorem addLog_logs_length_pos (s : AgentState) (ts msg : List Char)
    (hm : s.MaxLogs > 0) :
    (s.AddLog ts msg).Logs.length = min (s.Logs.length + 1) s.MaxLogs.toNat := by
  have hm' : s.MaxLogs.toNat > 0 := by omega
  simp only [AgentState.AddLog]
  by_cases hover : ((s.Logs ++ [mkLogEntry ts msg]).length : Int) > s.MaxLogs
  · rw [if_pos ⟨hm, hover⟩]
    simp only [List.length_drop, List.length_append, List.length_singleton] at *
    omega
  · rw [if_neg (by tauto)]
    have hne : ¬ s.MaxLogs = 0 := by omega
    rw [if_neg hne]
    simp only [List.length_append, List.length_singleton] at *
    omega

theorem addLogs_length (m : Int) (hm : m > 0) :
    ∀ (writes : List (List Char × List Char)) (s : AgentState),
      s.MaxLogs = m → s.Logs.length ≤ m.toNat →
      (addLogs s writes).Logs.length = min (s.Logs.length + writes.length) m.toNat := by
  intro writes
  induction writes with
  | nil =>
    intro s _ hlen
    simp only [addLogs, List.foldl_nil, List.length_nil, Nat.add_zero]
    omega
  | cons w ws ih =>
    intro s hsm hlen
    have hstep := addLog_logs_length_pos s w.1 w.2 (by omega)
    have hmax := addLog_maxLogs s w.1 w.2
    have ihs := ih (s.AddLog w.1 w.2) (by rw [hmax, hsm])
      (by rw [hstep, hsm]; omega)
    simp only [addLogs, List.foldl_cons, List.length_cons] at ihs ⊢
    rw [ihs, hstep, hsm]
    omega

/-- C8: `AddLog(msg)` appends one entry equal to the `HH:MM:SS` timestamp,
a space, and `msg`; an entry over 70 bytes is stored as its first 67 bytes
followed by `"..."` (exactly 70 bytes).  With `maxLogs = m > 0` only the
newest entries are kept and after `N` writes from an empty buffer the log
length is `min N m`; with `maxLogs = 0` the buffer is cleared on every
write; with negative `maxLogs` no trimming occurs. -/
theorem C8_addLog_spec (s : AgentState) (timestamp msg : List Char)
    (writes : List (List Char × List Char)) (m : Int) :
    ((timestamp ++ [' '] ++ msg).length ≤ 70 →
      mkLogEntry timestamp msg = timestamp ++ [' '] ++ msg) ∧
    ((timestamp ++ [' '] ++ msg).length > 70 →
      (mkLogEntry timestamp msg).length = 70 ∧
      mkLogEntry timestamp msg =
        (timestamp ++ [' '] ++ msg).take 67 ++ ['.', '.', '.']) ∧
    (s.MaxLogs > 0 →
      (s.AddLog timestamp msg).Logs <:+ s.Logs ++ [mkLogEntry timestamp msg]) ∧
    (m > 0 →
      (addLogs { s with Logs := [], MaxLogs := m } writes).Logs.length =
        min writes.length m.toNat) ∧
    (s.MaxLogs = 0 → (s.AddLog timestamp msg).Logs = []) ∧
    (s.MaxLogs < 0 →
      (s.AddLog timestamp msg).Logs = s.Logs ++ [mkLogEntry timestamp msg]) := by
  refine ⟨fun h => ?_, fun h => ?_, fun h => ?_, fun h => ?_, fun h => ?_, fun h => ?_⟩
  · simp only [mkLogEntry]
    rw [if_neg (by omega)]
  · simp only [mkLogEntry]
    rw [if_pos (by omega)]
    refine ⟨?_, rfl⟩
    have h67 : (List.take 67 (timestamp ++ [' '] ++ msg)).length = 67 := by
      rw [List.length_take]
      omega
    simp only [List.length_append, h67]
    rfl
  · simp only [AgentState.AddLog]
    by_cases hover :
        s.MaxLogs > 0 ∧ ((s.Logs ++ [mkLogEntry timestamp msg]).length : Int) > s.MaxLogs
    · rw [if_pos hover]
      exact List.drop_suffix _ _
    · rw [if_neg hover, if_neg (by omega)]
  · have := addLogs_length m h writes { s with Logs := [], MaxLogs := m } rfl
      (by simp)
    simpa using this
  · simp only [AgentState.AddLog]
    rw [if_neg (by omega), if_pos h]
  · simp only [AgentState.AddLog]
    rw [if_neg (by omega), if_neg (by omega)]

/-- Witness for C8 at a concrete over-long entry and a concrete sequence of
three writes with `maxLogs = 2`. -/
theorem C8_addLog_spec_witness :
    (mkLogEntry "12:34:56".data (List.replicate 70 'x')).length = 70 ∧
    (addLogs { NewAgentState "abcd1234" "external" "gw" 0 with Logs := [], MaxLogs := 2 }
        [("12:34:56".data, ['a']), ("12:34:56".data, ['b']),
         ("12:34:56".data, ['c'])]).Logs.length = min 3 2 := by
  have h := C8_addLog_spec (NewAgentState "abcd1234" "external" "gw" 0)
    "12:34:56".data (List.replicate 70 'x')
    [("12:34:56".data, ['a']), ("12:34:56".data, ['b']), ("12:34:56".data, ['c'])] 2
  exact ⟨(h.2.1 (by decide)).1, h.2.2.2.1 (by decide)⟩

theorem runOps_preserve (P : AgentState → Prop)
    (hstep : ∀ s op, P s → P (applyOp s op)) :
    ∀ (ops : List AgentOp) (s : AgentState), P s → P (runOps s ops) := by
  intro ops
  induction ops with
  | nil => intro s h; exact h
  | cons op ops ih =>
    intro s h
    simp only [runOps, List.foldl_cons]
    exact ih (applyOp s op) (hstep s op h)

theorem reachable_invariant (P : AgentState → Prop)
    (hinit : ∀ machineID poolName gateway now, P (NewAgentState machineID poolName gateway now))
    (hstep : ∀ s op, P s → P (applyOp s op)) :
    ∀ s, Reachable s → P s := by
  rintro s ⟨machineID, poolName, gateway, now, ops, rfl⟩
  exact runOps_preserve P hstep ops _ (hinit machineID poolName gateway now)

theorem updateJobCounts_jobs (s : AgentState) :
    s.updateJobCounts.Jobs = s.Jobs := by
  simp only [AgentState.updateJobCounts]
  split_ifs <;> rfl

theorem updateHeartbeat_jobs (s : AgentState) (success : Bool) (now : Int) :
    (s.UpdateHeartbeat success now).Jobs = s.Jobs := by
  simp only [AgentState.UpdateHeartbeat]
  split_ifs <;> rfl

theorem replaceFirstJob_map_podName (l : List JobInfo) (job : JobInfo) :
    (replaceFirstJob l job).map JobInfo.PodName = l.map JobInfo.PodName := by
  induction l with
  | nil => rfl
  | cons e rest ih =>
    simp only [replaceFirstJob]
    by_cases h : e.PodName = job.PodName
    · rw [if_pos h]
      simp [h]
    · rw [if_neg h]
      simp [ih]

theorem replaceFirstJob_length (l : List JobInfo) (job : JobInfo) :
    (replaceFirstJob l job).length = l.length := by
  have h := congrArg List.length (replaceFirstJob_map_podName l job)
  simpa using h

theorem replaceFirstJob_no_match (l : List JobInfo) (job : JobInfo)
    (h : ∀ e ∈ l, e.PodName ≠ job.PodName) : replaceFirstJob l job = l := by
  induction l with
  | nil => rfl
  | cons e rest ih =>
    simp only [replaceFirstJob]
    rw [if_neg (h e (List.mem_cons_self e rest))]
    rw [ih (fun x hx => h x (List.mem_cons_of_mem e hx))]

theorem map_upsert_no_match (l : List JobInfo) (job : JobInfo)
    (h : ∀ e ∈ l, e.PodName ≠ job.PodName) :
    l.map (fun e => if e.PodName = job.PodName then job else e) = l := by
  induction l with
  | nil => rfl
  | cons e rest ih =>
    simp only [List.map_cons]
    rw [if_neg (h e (List.mem_cons_self e rest)),
      ih (fun x hx => h x (List.mem_cons_of_mem e hx))]

theorem replaceFirstJob_eq_map (l : List JobInfo) (job : JobInfo)
    (hnodup : (l.map JobInfo.PodName).Nodup) :
    replaceFirstJob l job = l.map (fun e => if e.PodName = job.PodName then job else e) := by
  induction l with
  | nil => rfl
  | cons e rest ih =>
    simp only [List.map_cons, List.nodup_cons] at hnodup
    simp only [replaceFirstJob, List.map_cons]
    by_cases h : e.PodName = job.PodName
    · rw [if_pos h, if_pos h]
      have hrest : ∀ x ∈ rest, x.PodName ≠ job.PodName := by
        intro x hx hxe
        have hex : e.PodName = x.PodName := h.trans hxe.symm
        exact hnodup.1 (by rw [hex]; exact List.mem_map_of_mem JobInfo.PodName hx)
      rw [map_upsert_no_match rest job hrest]
    · rw [if_neg h, if_neg h, ih hnodup.2]

/-- The job-list invariant maintained by the published operations. -/
def JobsInv (s : AgentState) : Prop :=
  s.Jobs.length ≤ 20 ∧ (s.Jobs.map JobInfo.PodName).Nodup

theorem addJob_jobsInv (s : AgentState) (job : JobInfo) (h : JobsInv s) :
    JobsInv (s.AddJob job) := by
  obtain ⟨hlen, hnodup⟩ := h
  simp only [AgentState.AddJob]
  by_cases hmatch : s.Jobs.any (fun existing => existing.PodName = job.PodName) = true
  · rw [if_pos hmatch]
    constructor
    · rw [updateJobCounts_jobs]
      simpa [replaceFirstJob_length] using hlen
    · rw [updateJobCounts_jobs]
      simpa [replaceFirstJob_map_podName] using hnodup
  · rw [if_neg hmatch]
    have hno : ∀ e ∈ s.Jobs, e.PodName ≠ job.PodName := by
      intro e he
      simp only [List.any_eq_true, decide_eq_true_eq, not_exists] at hmatch
      intro hc
      exact hmatch e ⟨he, hc⟩
    constructor
    · rw [updateJobCounts_jobs]
      simp only [List.length_take, List.length_cons]
      omega
    · rw [updateJobCounts_jobs]
      have hnotmem : job.PodName ∉ s.Jobs.map JobInfo.PodName := by
        intro hc
        obtain ⟨e, he, hee⟩ := List.mem_map.mp hc
        exact hno e he hee
      have hcons : ((job :: s.Jobs).map JobInfo.PodName).Nodup := by
        simp only [List.map_cons, List.nodup_cons]
        exact ⟨hnotmem, hnodup⟩
      show (List.map JobInfo.PodName (List.take 20 (job :: s.Jobs))).Nodup
      exact hcons.sublist (List.Sublist.map JobInfo.PodName (List.take_sublist 20 _))

theorem reachable_jobsInv (s : AgentState) (h : Reachable s) : JobsInv s := by
  refine reachable_invariant JobsInv ?_ ?_ s h
  · intro machineID poolName gateway now
    exact ⟨by simp [NewAgentState], by simp [NewAgentState]⟩
  · intro t op hP
    cases op with
    | updateMetrics cpu memory gpus => exact hP
    | updateHeartbeat success now =>
      obtain ⟨h1, h2⟩ := hP
      constructor
      · rw [show applyOp t (.updateHeartbeat success now) = t.UpdateHeartbeat success now
          from rfl, updateHeartbeat_jobs]
        exact h1
      · rw [show applyOp t (.updateHeartbeat success now) = t.UpdateHeartbeat success now
          from rfl, updateHeartbeat_jobs]
        exact h2
    | addJob job => exact addJob_jobsInv t job hP
    | updateInference status ip port models => exact hP
    | addLog timestamp msg => exact hP

theorem nodup_filter_podName_le_one (l : List JobInfo) (p : String)
    (h : (l.map JobInfo.PodName).Nodup) :
    (l.filter (fun e => e.PodName = p)).length ≤ 1 := by
  induction l with
  | nil => simp
  | cons e rest ih =>
    simp only [List.map_cons, List.nodup_cons] at h
    by_cases hep : e.PodName = p
    · have hrest : rest.filter (fun x => decide (x.PodName = p)) = [] := by
        rw [List.filter_eq_nil_iff]
        intro x hx
        simp only [decide_eq_true_eq]
        intro hc
        exact h.1 (by
          rw [hep, ← hc]
          exact List.mem_map_of_mem JobInfo.PodName hx)
      simp only [List.filter_cons]
      rw [if_pos (by simp [hep]), hrest]
      simp
    · simp only [List.filter_cons]
      rw [if_neg (by simpa using hep)]
      exact ih h.2

/-- C3: `AddJob(job)` replaces an existing entry with the same `podName` in
place (length unchanged, every other entry unchanged at its position), and
otherwise prepends the job and truncates the list to 20 entries; every
reachable state has at most 20 jobs and at most one entry per `podName`. -/
theorem C3_addJob_spec (s : AgentState) (job : JobInfo) :
    ((∀ e ∈ s.Jobs, e.PodName ≠ job.PodName) →
      (s.AddJob job).Jobs = (job :: s.Jobs).take 20) ∧
    ((s.Jobs.map JobInfo.PodName).Nodup → (∃ e ∈ s.Jobs, e.PodName = job.PodName) →
      (s.AddJob job).Jobs.length = s.Jobs.length ∧
      (s.AddJob job).Jobs =
        s.Jobs.map (fun e => if e.PodName = job.PodName then job else e)) ∧
    (∀ t : AgentState, Reachable t →
      t.Jobs.length ≤ 20 ∧
      ∀ p, (t.Jobs.filter (fun e => e.PodName = p)).length ≤ 1) := by
  refine ⟨fun hno => ?_, fun hnodup hmem => ?_, fun t ht => ?_⟩
  · have hany : (s.Jobs.any (fun existing => existing.PodName = job.PodName)) ≠ true := by
      intro hc
      rw [List.any_eq_true] at hc
      obtain ⟨e, he, hee⟩ := hc
      exact hno e he (by simpa using hee)
    simp only [AgentState.AddJob]
    rw [if_neg hany, updateJobCounts_jobs]
  · have hany : s.Jobs.any (fun existing => existing.PodName = job.PodName) = true := by
      obtain ⟨e, he, hee⟩ := hmem
      simp only [List.any_eq_true, decide_eq_true_eq]
      exact ⟨e, he, hee⟩
    simp only [AgentState.AddJob]
    rw [if_pos hany, updateJobCounts_jobs]
    exact ⟨replaceFirstJob_length s.Jobs job, replaceFirstJob_eq_map s.Jobs job hnodup⟩
  · obtain ⟨hlen, hnodup⟩ := reachable_jobsInv t ht
    exact ⟨hlen, fun p => nodup_filter_podName_le_one t.Jobs p hnodup⟩

/-- Witness for C3 at a concrete insert into a fresh state. -/
theorem C3_addJob_spec_witness :
    (AgentState.AddJob (NewAgentState "abcd1234" "external" "gw" 0)
        { PodName := "w1", Status := JobStatus.running }).Jobs =
      [{ PodName := "w1", Status := JobStatus.running }] ∧
    (NewAgentState "abcd1234" "external" "gw" 0).Jobs.length ≤ 20 := by
  have h := C3_addJob_spec (NewAgentState "abcd1234" "external" "gw" 0)
    { PodName := "w1", Status := JobStatus.running }
  constructor
  · have h1 := h.1 (by simp [NewAgentState])
    rw [h1]
    rfl
  · exact (h.2.2 _ ⟨"abcd1234", "external", "gw", 0, [], rfl⟩).1

theorem updateJobCounts_heartbeatStatus (s : AgentState) :
    s.updateJobCounts.HeartbeatStatus = s.HeartbeatStatus := by
  simp only [AgentState.updateJobCounts]
  split_ifs <;> rfl

theorem updateJobCounts_runningJobs (s : AgentState) :
    s.updateJobCounts.RunningJobs = runningCount s.Jobs := by
  simp only [AgentState.updateJobCounts]
  split_ifs <;> rfl

theorem updateJobCounts_status (s : AgentState) :
    s.updateJobCounts.Status = "BUSY" ∨
    (s.updateJobCounts.Status = "READY" ∧ s.HeartbeatStatus = "ok") ∨
    s.updateJobCounts.Status = s.Status := by
  simp only [AgentState.updateJobCounts]
  split_ifs with h1 h2
  · exact Or.inl rfl
  · exact Or.inr (Or.inl ⟨rfl, h2⟩)
  · exact Or.inr (Or.inr rfl)

theorem updateJobCounts_busy (s : AgentState)
    (h : s.updateJobCounts.RunningJobs > 0) : s.updateJobCounts.Status = "BUSY" := by
  rw [updateJobCounts_runningJobs] at h
  simp only [AgentState.updateJobCounts]
  rw [if_pos h]

theorem addJob_heartbeatStatus (s : AgentState) (job : JobInfo) :
    (s.AddJob job).HeartbeatStatus = s.HeartbeatStatus := by
  simp only [AgentState.AddJob]
  split_ifs <;> rw [updateJobCounts_heartbeatStatus]

theorem addJob_status (s : AgentState) (job : JobInfo) :
    (s.AddJob job).Status = "BUSY" ∨
    ((s.AddJob job).Status = "READY" ∧ s.HeartbeatStatus = "ok") ∨
    (s.AddJob job).Status = s.Status := by
  simp only [AgentState.AddJob]
  split_ifs with h
  · exact updateJobCounts_status _
  · exact updateJobCounts_status _

theorem addJob_running_busy (t : AgentState) (job : JobInfo)
    (h : (t.AddJob job).RunningJobs > 0) : (t.AddJob job).Status = "BUSY" := by
  simp only [AgentState.AddJob] at h ⊢
  split_ifs at h ⊢ with hc
  · exact updateJobCounts_busy _ h
  · exact updateJobCounts_busy _ h

/-- The status/heartbeat relationship maintained by the published
operations. -/
def StatusInv (s : AgentState) : Prop :=
  (s.Status = "UNHEALTHY" → s.HeartbeatStatus = "failed") ∧
  (s.HeartbeatStatus = "failed" → s.Status = "UNHEALTHY" ∨ s.Status = "BUSY")

theorem reachable_statusInv (s : AgentState) (h : Reachable s) : StatusInv s := by
  refine reachable_invariant StatusInv ?_ ?_ s h
  · intro machineID poolName gateway now
    constructor
    · intro hc
      rw [show (NewAgentState machineID poolName gateway now).Status = "STARTING" from rfl]
        at hc
      exact absurd hc (by decide)
    · intro hc
      rw [show (NewAgentState machineID poolName gateway now).HeartbeatStatus = "" from rfl]
        at hc
      exact absurd hc (by decide)
  · intro t op hP
    obtain ⟨h1, h2⟩ := hP
    cases op with
    | updateMetrics cpu memory gpus => exact ⟨h1, h2⟩
    | updateInference status ip port models => exact ⟨h1, h2⟩
    | addLog timestamp msg => exact ⟨h1, h2⟩
    | updateHeartbeat success now =>
      cases success with
      | true =>
        refine ⟨fun hc => ?_, fun hc => ?_⟩
        · have hstat : (applyOp t (AgentOp.updateHeartbeat true now)).Status =
              if t.Status ≠ "BUSY" then "READY" else t.Status := rfl
          rw [hstat] at hc
          by_cases hb : t.Status = "BUSY"
          · rw [if_neg (not_not_intro hb)] at hc
            rw [hb] at hc
            exact absurd hc (by decide)
          · rw [if_pos hb] at hc
            exact absurd hc (by decide)
        · have hhb : (applyOp t (AgentOp.updateHeartbeat true now)).HeartbeatStatus = "ok" :=
            rfl
          rw [hhb] at hc
          exact absurd hc (by decide)
      | false =>
        exact ⟨fun _ => rfl, fun _ => Or.inl rfl⟩
    | addJob job =>
      have hSt : (applyOp t (AgentOp.addJob job)).Status = (t.AddJob job).Status := rfl
      have hHb : (applyOp t (AgentOp.addJob job)).HeartbeatStatus =
          (t.AddJob job).HeartbeatStatus := rfl
      constructor
      · intro hc
        rw [hSt] at hc
        rw [hHb, addJob_heartbeatStatus]
        rcases addJob_status t job with hb | ⟨hr, _⟩ | hsame
        · rw [hb] at hc
          exact absurd hc (by decide)
        · rw [hr] at hc
          exact absurd hc (by decide)
        · rw [hsame] at hc
          exact h1 hc
      · intro hf
        rw [hHb, addJob_heartbeatStatus] at hf
        rw [hSt]
        rcases addJob_status t job with hb | ⟨hr, hok⟩ | hsame
        · exact Or.inr hb
        · exact absurd (hok.symm.trans hf) (by decide)
        · rw [hsame]
          exact h2 hf

/-- C1 counterexample: from a fresh state, `AddJob` of a running job
followed by `UpdateHeartbeat(false)` reaches a state with
`runningJobs = 1 > 0` whose status is `"UNHEALTHY"`, not `"BUSY"` — so
neither claimed biconditional holds for all reachable states. -/
theorem C1_counterexample :
    (runOps (NewAgentState "abcd1234" "external" "gw" 0)
        [AgentOp.addJob { PodName := "w1", Status := JobStatus.running },
         AgentOp.updateHeartbeat false 1]).RunningJobs > 0 ∧
    (runOps (NewAgentState "abcd1234" "external" "gw" 0)
        [AgentOp.addJob { PodName := "w1", Status := JobStatus.running },
         AgentOp.updateHeartbeat false 1]).Status = "UNHEALTHY" ∧
    ¬ (runOps (NewAgentState "abcd1234" "external" "gw" 0)
        [AgentOp.addJob { PodName := "w1", Status := JobStatus.running },
         AgentOp.updateHeartbeat false 1]).Status = "BUSY" ∧
    (runOps (NewAgentState "abcd1234" "external" "gw" 0)
        [AgentOp.addJob { PodName := "w1", Status := JobStatus.running },
         AgentOp.updateHeartbeat false 1]).HeartbeatStatus = "failed" := by
  decide

/-- C1 (amended): for every state reachable by the published operations
from a fresh state, `status = "UNHEALTHY"` iff `heartbeatStatus = "failed"`
and `status ≠ "BUSY"`; and immediately after any `AddJob` call, if
`runningJobs > 0` then `status = "BUSY"`. -/
theorem C1_status_invariant (s : AgentState) (h : Reachable s) :
    (s.Status = "UNHEALTHY" ↔ (s.HeartbeatStatus = "failed" ∧ s.Status ≠ "BUSY")) ∧
    (∀ (t : AgentState) (job : JobInfo),
      (t.AddJob job).RunningJobs > 0 → (t.AddJob job).Status = "BUSY") := by
  obtain ⟨h1, h2⟩ := reachable_statusInv s h
  constructor
  · constructor
    · intro hu
      refine ⟨h1 hu, ?_⟩
      rw [hu]
      decide
    · rintro ⟨hf, hnb⟩
      rcases h2 hf with hu | hb
      · exact hu
      · exact absurd hb hnb
  · exact fun t job hr => addJob_running_busy t job hr

/-- Witness for C1 (amended) at a fresh state and a concrete `AddJob`. -/
theorem C1_status_invariant_witness :
    (¬ (NewAgentState "abcd1234" "external" "gw" 0).Status = "UNHEALTHY") ∧
    (AgentState.AddJob (NewAgentState "abcd1234" "external" "gw" 0)
        { PodName := "w1", Status := JobStatus.running }).Status = "BUSY" := by
  have h := C1_status_invariant (NewAgentState "abcd1234" "external" "gw" 0)
    ⟨"abcd1234", "external", "gw", 0, [], rfl⟩
  refine ⟨fun hc => ?_, ?_⟩
  · exact absurd (h.1.mp hc).1 (by decide)
  · exact h.2 _ _ (by decide)

end Beta9
